import Mathlib

/-!
Verification of the DocuMind AI backend document question-answering pipeline.

The JavaScript source is shallowly embedded in Lean.  External effects
(the Gemini text-generation call, the PDF download, the PDF parse, the
filesystem) are modelled as oracle parameters of type Except, so every
definition is a pure function of the request data and the oracle outcomes.
JavaScript strings are modelled as Lean String where only lengths and
equality matter, and as List Char where character-level operations
(trim, startsWith, filter) must be reasoned about.  JavaScript string
length counts UTF-16 code units while Lean String.length counts code
points; all concrete inputs used below are ASCII, where the two agree.
-/

/-- A JSON-like JavaScript value as it appears in a request body: a string,
an array, or anything else (number, object, boolean, null).  Only the
string/array distinction is inspected by the validators. -/
inductive JVal where
  | jstr (s : String)
  | jarr (items : List JVal)
  | jother
deriving Repr

/-- Characters treated as whitespace by the JavaScript trim / regex \s model:
space, tab, line feed, carriage return, vertical tab, form feed, NBSP. -/
def jsWhitespace (c : Char) : Bool :=
  c = ' ' || c = '\t' || c = '\n' || c = '\r' ||
  c = Char.ofNat 0x0B || c = Char.ofNat 0x0C || c = Char.ofNat 0xA0

/-- Model of JavaScript String.prototype.trim on a character list: drop
whitespace from both ends. -/
def jsTrim (l : List Char) : List Char :=
  ((l.dropWhile jsWhitespace).reverse.dropWhile jsWhitespace).reverse

/-- Model of JavaScript String.prototype.startsWith: listStartsWith s p is
true when p is an initial segment of s. -/
def listStartsWith : List Char → List Char → Bool
  | _, [] => true
  | [], _ :: _ => false
  | c :: cs, p :: ps => c == p && listStartsWith cs ps

theorem listStartsWith_iff (l p : List Char) :
    listStartsWith l p = true ↔ ∃ r, l = p ++ r := by
  induction p generalizing l with
  | nil => simp [listStartsWith]
  | cons a ps ih =>
    cases l with
    | nil => simp [listStartsWith]
    | cons c cs =>
      simp [listStartsWith, Bool.and_eq_true, beq_iff_eq, ih]

/-! ## GeminiService (src/unnamed/part_002, class GeminiService)

The external model call `this.model.generateContent(prompt)` followed by
`response.text()` is modelled as an oracle `svc : String → Except String
String` mapping the prompt to the produced text or to a failure message. -/

/-- The prompt constructed by GeminiService.generateAnswer.  The JavaScript
conditional `documentContent ? A : B` tests string truthiness, i.e. whether
documentContent is nonempty. -/
def buildPrompt (question documentContent : String) : String :=
  if documentContent = "" then
    "Answer the following question: " ++ question
  else
    "Based on the following document content, answer the question.\n\nDocument Content:\n"
      ++ documentContent ++ "\n\nQuestion: " ++ question ++ "\n\nAnswer:"

/-- GeminiService.generateAnswer, instrumented with the list of prompts sent
to the external service (the second component records each invocation of the
oracle, in order).  On failure the thrown error message is
"Gemini API error: " followed by the underlying message. -/
def generateAnswerTraced (svc : String → Except String String)
    (question : String) (documentContent : String) :
    Except String String × List String :=
  let prompt := buildPrompt question documentContent
  match svc prompt with
  | Except.ok text => (Except.ok text, [prompt])
  | Except.error msg => (Except.error ("Gemini API error: " ++ msg), [prompt])

/-- GeminiService.generateAnswer: the result component of the traced
version. -/
def generateAnswer (svc : String → Except String String)
    (question : String) (documentContent : String) : Except String String :=
  (generateAnswerTraced svc question documentContent).1

/-- The fallback answer pushed by GeminiService.processQuestions when
generateAnswer throws for a question. -/
def fallbackAnswer (question : String) : String :=
  "Sorry, I couldn't process this question: " ++ question

/-- The per-question step of the processQuestions loop: the answer on
success, the fallback string when generateAnswer throws. -/
def answerFor (svc : String → Except String String)
    (documentContent question : String) : String :=
  match generateAnswer svc question documentContent with
  | Except.ok answer => answer
  | Except.error _ => fallbackAnswer question

/-- GeminiService.processQuestions: iterates over the questions in order,
pushing one answer (or fallback) per question. -/
def processQuestions (svc : String → Except String String)
    (questions : List String) (documentContent : String) : List String :=
  match questions with
  | [] => []
  | q :: rest => answerFor svc documentContent q :: processQuestions svc rest documentContent

theorem processQuestions_length (svc : String → Except String String)
    (questions : List String) (documentContent : String) :
    (processQuestions svc questions documentContent).length = questions.length := by
  induction questions with
  | nil => rfl
  | cons q rest ih => simp [processQuestions, ih]

theorem processQuestions_get? (svc : String → Except String String)
    (questions : List String) (documentContent : String) (i : Nat) :
    (processQuestions svc questions documentContent).get? i
      = (questions.get? i).map (answerFor svc documentContent) := by
  induction questions generalizing i with
  | nil => simp [processQuestions]
  | cons q rest ih =>
    cases i with
    | zero => simp [processQuestions]
    | succ n => simpa [processQuestions] using ih n

/-- C1: for every oracle, every context and every question list,
processQuestions returns exactly one answer per question, the answer at
index i being a function of the question at index i alone, no matter which
individual generation calls fail. -/
theorem processQuestions_length_and_alignment
    (svc : String → Except String String)
    (questions : List String) (documentContent : String) :
    (processQuestions svc questions documentContent).length = questions.length ∧
    ∀ i : Nat, (processQuestions svc questions documentContent).get? i
      = (questions.get? i).map (answerFor svc documentContent) :=
  ⟨processQuestions_length svc questions documentContent,
   fun i => processQuestions_get? svc questions documentContent i⟩

/-- C2: when generateAnswer throws for the question at index i, slot i of
processQuestions holds the fixed fallback string embedding that question,
and every slot whose own generation call succeeded holds the returned
answer; no error propagates out of processQuestions. -/
theorem processQuestions_isolation
    (svc : String → Except String String)
    (questions : List String) (documentContent : String) :
    (∀ i q e, questions.get? i = some q →
      generateAnswer svc q documentContent = Except.error e →
      (processQuestions svc questions documentContent).get? i
        = some (fallbackAnswer q)) ∧
    (∀ j q a, questions.get? j = some q →
      generateAnswer svc q documentContent = Except.ok a →
      (processQuestions svc questions documentContent).get? j = some a) := by
  constructor
  · intro i q e hq he
    rw [processQuestions_get?, hq]
    simp [answerFor, he]
  · intro j q a hq ha
    rw [processQuestions_get?, hq]
    simp [answerFor, ha]

/-- C2 witness: with an oracle that fails exactly on the second question,
slot 1 holds the fallback string and slot 0 holds the produced answer. -/
theorem processQuestions_isolation_witness :
    (processQuestions
        (fun prompt =>
          if prompt = "Answer the following question: failing question"
          then Except.error "quota exceeded" else Except.ok "a fine answer")
        ["first question", "failing question"] "").get? 1
      = some (fallbackAnswer "failing question") ∧
    (processQuestions
        (fun prompt =>
          if prompt = "Answer the following question: failing question"
          then Except.error "quota exceeded" else Except.ok "a fine answer")
        ["first question", "failing question"] "").get? 0
      = some "a fine answer" := by
  constructor
  · exact (processQuestions_isolation
      (fun prompt =>
        if prompt = "Answer the following question: failing question"
        then Except.error "quota exceeded" else Except.ok "a fine answer")
      ["first question", "failing question"] "").1 1 "failing question"
      "Gemini API error: quota exceeded" rfl rfl
  · exact (processQuestions_isolation
      (fun prompt =>
        if prompt = "Answer the following question: failing question"
        then Except.error "quota exceeded" else Except.ok "a fine answer")
      ["first question", "failing question"] "").2 0 "first question"
      "a fine answer" rfl rfl

/-- C8: generateAnswer sends exactly one prompt to the external service,
namely buildPrompt question documentContent, and when the service succeeds
the produced text is returned verbatim. -/
theorem generateAnswer_single_call_verbatim
    (svc : String → Except String String)
    (question documentContent : String) :
    ((generateAnswerTraced svc question documentContent).2).length = 1 ∧
    (generateAnswerTraced svc question documentContent).2
      = [buildPrompt question documentContent] ∧
    (∀ text, svc (buildPrompt question documentContent) = Except.ok text →
      generateAnswer svc question documentContent = Except.ok text) := by
  have h2 : (generateAnswerTraced svc question documentContent).2
      = [buildPrompt question documentContent] := by
    unfold generateAnswerTraced
    cases h : svc (buildPrompt question documentContent) <;> simp [h]
  refine ⟨by rw [h2]; rfl, h2, ?_⟩
  intro text h
  unfold generateAnswer generateAnswerTraced
  simp [h]

/-- C8 witness: a constant oracle produces its text verbatim through
generateAnswer. -/
theorem generateAnswer_single_call_verbatim_witness :
    generateAnswer (fun _ => Except.ok "the service text")
      "What is the notice period?" "policy text" = Except.ok "the service text" :=
  (generateAnswer_single_call_verbatim (fun _ => Except.ok "the service text")
    "What is the notice period?" "policy text").2.2 "the service text" rfl

/-! ## RagService (src/middleware/errorHandler.js, class RagService)

Extraction is modelled by its outcome, an oracle of type
Except String String (the extracted text or the thrown error message).
RagService throws an Error named DocumentProcessingError on structural
failure; that is the only error shape the route handler inspects. -/

/-- The error RagService propagates to the route handler. -/
inductive RagError where
  | documentProcessingError (message : String)
deriving Repr, DecidableEq

/-- RagService.processDocumentAndQuestions (the URL variant): the inner
try/catch downgrades an extraction failure to an empty documentContent, then
answers are generated; processQuestions never throws, so the outer catch is
unreachable and the call always yields an answer list. -/
def processDocumentAndQuestions (extractResult : Except String String)
    (svc : String → Except String String) (questions : List String) :
    Except RagError (List String) :=
  let documentContent :=
    match extractResult with
    | Except.ok text => text
    | Except.error _ => ""
  Except.ok (processQuestions svc questions documentContent)

/-- RagService.processFileAndQuestions (the local-path variant): there is no
inner try/catch, so an extraction failure reaches the outer catch and is
rethrown as a DocumentProcessingError. -/
def processFileAndQuestions (extractResult : Except String String)
    (svc : String → Except String String) (questions : List String) :
    Except RagError (List String) :=
  match extractResult with
  | Except.ok documentContent =>
    Except.ok (processQuestions svc questions documentContent)
  | Except.error _ =>
    Except.error (RagError.documentProcessingError "Failed to process file and questions")

/-- C3 counterexample: in the local-path variant a failed extraction does
not yield an answer list at all; the request fails with a
DocumentProcessingError even though one valid question was supplied. -/
theorem processFileAndQuestions_extraction_failure_counterexample :
    processFileAndQuestions
        (Except.error "PDF file processing failed: PDF file not found")
        (fun _ => Except.ok "an answer") ["What is the notice period?"]
      = Except.error (RagError.documentProcessingError
          "Failed to process file and questions") ∧
    (processFileAndQuestions
        (Except.error "PDF file processing failed: PDF file not found")
        (fun _ => Except.ok "an answer") ["What is the notice period?"]).toOption
      = none :=
  ⟨rfl, rfl⟩

/-- C3 amended: only the URL variant tolerates extraction failure — it
proceeds with the empty string as context and still returns one answer per
question; the local-path variant propagates extraction failure as a
DocumentProcessingError. -/
theorem ragService_extraction_failure_behavior
    (e : String) (svc : String → Except String String)
    (questions : List String) :
    processDocumentAndQuestions (Except.error e) svc questions
      = Except.ok (processQuestions svc questions "") ∧
    (processDocumentAndQuestions (Except.error e) svc questions).map List.length
      = Except.ok questions.length ∧
    processFileAndQuestions (Except.error e) svc questions
      = Except.error (RagError.documentProcessingError
          "Failed to process file and questions") := by
  refine ⟨rfl, ?_, rfl⟩
  simp [processDocumentAndQuestions, Except.map, processQuestions_length]

/-! ## PdfService (src/unnamed/part_001, class PdfService)

The axios download, the filesystem read and the pdf-parse call are oracles.
A parse result carries the text field of the parsed data, where none models
a missing (undefined/null) text; the JavaScript guard is
"if (!text || text.trim().length === 0) throw". -/

/-- How the axios download can fail, matching the branches of the catch
block in extractTextFromUrl: an HTTP error response, ENOTFOUND, ETIMEDOUT,
or any other failure. -/
inductive DownloadFailure where
  | httpError (status : Nat) (statusText : String)
  | hostNotFound
  | timedOut
  | otherFailure (message : String)
deriving Repr, DecidableEq

/-- The data produced by pdf-parse: only the text field is consumed. -/
structure PdfParseData where
  text : Option String
deriving Repr, DecidableEq

/-- PdfService.extractTextFromUrl: downloads the PDF, parses it, and throws
when the parsed text is missing or whitespace-only; the catch block maps
each failure kind to its message. -/
def extractTextFromUrl (download : Except DownloadFailure Unit)
    (parse : Except String PdfParseData) : Except String String :=
  match download with
  | Except.error (DownloadFailure.httpError status statusText) =>
    Except.error ("Failed to download PDF: " ++ toString status ++ " " ++ statusText)
  | Except.error DownloadFailure.hostNotFound =>
    Except.error "PDF document not found at the provided URL"
  | Except.error DownloadFailure.timedOut =>
    Except.error "Timeout while downloading PDF document"
  | Except.error (DownloadFailure.otherFailure message) =>
    Except.error ("PDF processing failed: " ++ message)
  | Except.ok _ =>
    match parse with
    | Except.error message => Except.error ("PDF processing failed: " ++ message)
    | Except.ok data =>
      match data.text with
      | none => Except.error "PDF processing failed: PDF contains no extractable text"
      | some text =>
        if (jsTrim text.toList).length = 0 then
          Except.error "PDF processing failed: PDF contains no extractable text"
        else
          Except.ok text

/-- PdfService.extractTextFromFile: checks file existence, reads and parses
the file, and applies the same missing/whitespace-only text guard; every
failure is wrapped by the catch block. -/
def extractTextFromFile (fileExists : Bool)
    (readResult : Except String Unit)
    (parse : Except String PdfParseData) : Except String String :=
  if fileExists = false then
    Except.error "PDF file processing failed: PDF file not found"
  else
    match readResult with
    | Except.error message => Except.error ("PDF file processing failed: " ++ message)
    | Except.ok _ =>
      match parse with
      | Except.error message => Except.error ("PDF file processing failed: " ++ message)
      | Except.ok data =>
        match data.text with
        | none => Except.error "PDF file processing failed: PDF contains no extractable text"
        | some text =>
          if (jsTrim text.toList).length = 0 then
            Except.error "PDF file processing failed: PDF contains no extractable text"
          else
            Except.ok text

/-- C6: both extraction entry points fail whenever the parsed text is
absent or trims to nothing, and a successfully returned string never trims
to nothing. -/
theorem extraction_rejects_blank_text
    (download : Except DownloadFailure Unit) (fileExists : Bool)
    (readResult : Except String Unit) (parse : Except String PdfParseData) :
    (∀ data, parse = Except.ok data →
      (data.text = none ∨ ∀ s, data.text = some s → (jsTrim s.toList).length = 0) →
      (extractTextFromUrl download parse).isOk = false ∧
      (extractTextFromFile fileExists readResult parse).isOk = false) ∧
    (∀ s, extractTextFromUrl download parse = Except.ok s →
      (jsTrim s.toList).length ≠ 0) ∧
    (∀ s, extractTextFromFile fileExists readResult parse = Except.ok s →
      (jsTrim s.toList).length ≠ 0) := by
  refine ⟨?_, ?_, ?_⟩
  · rintro data rfl hblank
    constructor
    · rcases download with d | u
      · rcases d <;> simp [extractTextFromUrl, Except.isOk, Except.toBool]
      · rcases hdt : data.text with _ | s
        · simp [extractTextFromUrl, hdt, Except.isOk, Except.toBool]
        · rcases hblank with h | h
          · rw [hdt] at h
            exact absurd h (by simp)
          · have hz : jsTrim s.data = [] := by simpa using h s hdt
            simp [extractTextFromUrl, hdt, hz, Except.isOk, Except.toBool]
    · rcases fileExists with _ | _
      · simp [extractTextFromFile, Except.isOk, Except.toBool]
      · rcases readResult with m | u
        · simp [extractTextFromFile, Except.isOk, Except.toBool]
        · rcases hdt : data.text with _ | s
          · simp [extractTextFromFile, hdt, Except.isOk, Except.toBool]
          · rcases hblank with h | h
            · rw [hdt] at h
              exact absurd h (by simp)
            · have hz : jsTrim s.data = [] := by simpa using h s hdt
              simp [extractTextFromFile, hdt, hz, Except.isOk, Except.toBool]
  · intro s hok
    rcases download with d | u
    · rcases d <;> simp [extractTextFromUrl] at hok
    · rcases parse with m | data
      · simp [extractTextFromUrl] at hok
      · rcases hdt : data.text with _ | t
        · simp [extractTextFromUrl, hdt] at hok
        · simp [extractTextFromUrl, hdt] at hok
          rw [eq_comm] at hok
          split at hok
          · exact absurd hok (by simp)
          · rename_i hcond
            obtain rfl : s = t := by simpa using hok
            intro hlen
            exact hcond (by simpa using hlen)
  · intro s hok
    rcases fileExists with _ | _
    · simp [extractTextFromFile] at hok
    · rcases readResult with m | u
      · simp [extractTextFromFile] at hok
      · rcases parse with m | data
        · simp [extractTextFromFile] at hok
        · rcases hdt : data.text with _ | t
          · simp [extractTextFromFile, hdt] at hok
          · simp [extractTextFromFile, hdt] at hok
            rw [eq_comm] at hok
            split at hok
            · exact absurd hok (by simp)
            · rename_i hcond
              obtain rfl : s = t := by simpa using hok
              intro hlen
              exact hcond (by simpa using hlen)

/-- C6 witness: a parse yielding whitespace-only text makes both entry
points fail even when download, existence check and read all succeed. -/
theorem extraction_rejects_blank_text_witness :
    (extractTextFromUrl (Except.ok ())
        (Except.ok { text := some "   " })).isOk = false ∧
    (extractTextFromFile true (Except.ok ())
        (Except.ok { text := some "   " })).isOk = false :=
  (extraction_rejects_blank_text (Except.ok ()) true (Except.ok ())
      (Except.ok { text := some "   " })).1
    { text := some "   " } rfl
    (Or.inr (fun s hs => by
      rw [show s = "   " from (Option.some.injEq _ _).mp hs.symm ▸ rfl]
      rfl))

/-! ## authMiddleware (src/unnamed/part_002, function authMiddleware)

Header values are JavaScript strings, modelled as character lists; the
request may lack the Authorization header (none) and the process may lack
the configured AUTH_BEARER_TOKEN environment variable (none).  The
JavaScript test "!authHeader" is true for an absent header and for the
empty string. -/

/-- What the middleware does with a request: answer 401 immediately, or
call next() so the route handler (the pipeline) runs. -/
inductive AuthDecision where
  | respond401 (message : String)
  | callNext
deriving Repr, DecidableEq

/-- The character list of the literal "Bearer " tested by
authHeader.startsWith and skipped by authHeader.substring(7). -/
def bearerTag : List Char := ['B', 'e', 'a', 'r', 'e', 'r', ' ']

/-- authMiddleware: rejects a missing or empty Authorization header, then a
header without the Bearer tag, then a token differing from the configured
secret; the JavaScript comparison token !== expectedToken is always true
when the secret is unconfigured (a string is never strictly equal to
undefined). -/
def authMiddleware (expectedToken : Option (List Char))
    (authHeader : Option (List Char)) : AuthDecision :=
  match authHeader with
  | none => AuthDecision.respond401 "Authorization header is missing"
  | some header =>
    if header = [] then AuthDecision.respond401 "Authorization header is missing"
    else if listStartsWith header bearerTag = false then
      AuthDecision.respond401 "Authorization header must use Bearer token format"
    else
      match expectedToken with
      | none => AuthDecision.respond401 "Invalid bearer token"
      | some expected =>
        if header.drop 7 = expected then AuthDecision.callNext
        else AuthDecision.respond401 "Invalid bearer token"

/-- C7: with a configured secret, the middleware calls the route handler
exactly when the header is the Bearer tag followed by the secret; in every
other case (absent header, missing tag, wrong token) it responds 401 and
the pipeline is never reached. -/
theorem authMiddleware_callNext_iff (expected : List Char)
    (authHeader : Option (List Char)) :
    authMiddleware (some expected) authHeader = AuthDecision.callNext
      ↔ authHeader = some (bearerTag ++ expected) := by
  cases authHeader with
  | none => simp [authMiddleware]
  | some header =>
    simp only [authMiddleware, Option.some.injEq]
    constructor
    · intro hres
      by_cases h0 : header = []
      · rw [if_pos h0] at hres
        exact absurd hres (by simp)
      · rw [if_neg h0] at hres
        by_cases hsw : listStartsWith header bearerTag = false
        · rw [if_pos hsw] at hres
          exact absurd hres (by simp)
        · rw [if_neg hsw] at hres
          have hpre : listStartsWith header bearerTag = true := by
            cases h : listStartsWith header bearerTag
            · exact absurd h hsw
            · rfl
          obtain ⟨r, rfl⟩ := (listStartsWith_iff header bearerTag).mp hpre
          by_cases hdr : (bearerTag ++ r).drop 7 = expected
          · rw [← hdr]
            simp [bearerTag]
          · rw [if_neg hdr] at hres
            exact absurd hres (by simp)
    · rintro rfl
      rw [if_neg (by simp [bearerTag]),
          if_neg (by
            have : listStartsWith (bearerTag ++ expected) bearerTag = true :=
              (listStartsWith_iff _ _).mpr ⟨expected, rfl⟩
            simp [this]),
          if_pos (by simp [bearerTag])]

/-- Helper: recognizes the 401 outcome. -/
def isRespond401 : AuthDecision → Bool
  | AuthDecision.respond401 _ => true
  | AuthDecision.callNext => false

/-- C10: with no configured secret, every request is answered 401 — the
string token extracted from any header is never strictly equal to the
undefined expected token — so the pipeline is never reached. -/
theorem authMiddleware_fails_closed_without_secret
    (authHeader : Option (List Char)) :
    isRespond401 (authMiddleware none authHeader) = true := by
  cases authHeader with
  | none => rfl
  | some header =>
    by_cases h0 : header = []
    · simp [authMiddleware, h0, isRespond401]
    · by_cases hsw : listStartsWith header bearerTag = false
      · simp [authMiddleware, h0, hsw, isRespond401]
      · simp [authMiddleware, h0, hsw, isRespond401]

/-! ## Request validator (src/utils/validator.js)

The request body is modelled by its two recognized fields plus a flag for
the presence of any other key (the schema is validated with allowUnknown
false, so any unknown key is a violation regardless of its value).  Joi
message strings configured in the schema are used as the violation
values. -/

/-- A request body for the run endpoint. -/
structure RequestBody where
  documents : Option JVal
  questions : Option JVal
  hasUnknownKeys : Bool

/-- Modelled from the external Joi uri check with scheme http/https and
allowRelative false (library code, not repository code): the string must
start with the http or https scheme followed by a nonempty remainder and
contain no space.  Every concrete URL used in the theorems below is decided
identically by Joi and by this model. -/
def isHttpUri (s : String) : Bool :=
  (listStartsWith s.toList ("http://".toList) && decide (7 < s.toList.length)
    || listStartsWith s.toList ("https://".toList) && decide (8 < s.toList.length))
  && !(s.toList.contains ' ')

/-- The violations Joi reports for one element of the questions array:
Joi.string().min(5).max(1000) measures the raw, untrimmed string length. -/
def questionItemViolations (v : JVal) : List String :=
  match v with
  | JVal.jstr s =>
    (if s.length < 5 then ["Each question must be at least 5 characters long"] else []) ++
    (if s.length > 1000 then ["Each question must not exceed 1000 characters"] else [])
  | _ => ["Each question must be a string"]

/-- Violations collected across the questions array, in element order
(abortEarly is false, so all elements are checked). -/
def collectItemViolations : List JVal → List String
  | [] => []
  | v :: rest => questionItemViolations v ++ collectItemViolations rest

/-- Joi array coercion under the default convert true (validator.js sets
only abortEarly, allowUnknown and stripUnknown, so convert stays on): a
string value of an array-typed field whose first non-space character is an
opening bracket is fed to JSON.parse, and on success the parsed array
replaces the string before the items/min/max rules run.  The JSON.parse
outcome is an oracle, as in the upload route model: parseArr s is some
items when the coercion applies to s and parsing succeeds (a JSON text
opening with a bracket can only parse to an array), none otherwise, in
which case the value stays a string and fails the array.base rule. -/
def coercedQuestions (parseArr : String → Option (List JVal))
    (questions : Option JVal) : Option JVal :=
  match questions with
  | some (JVal.jstr s) =>
    match parseArr s with
    | some items => some (JVal.jarr items)
    | none => some (JVal.jstr s)
  | other => other

/-- The violations of runRequestSchema.validate with abortEarly false and
allowUnknown false: unknown keys, then the documents rule, then the
questions rules applied to the convert-coerced questions value. -/
def runRequestViolations (parseArr : String → Option (List JVal))
    (body : RequestBody) : List String :=
  (if body.hasUnknownKeys then ["is not allowed"] else []) ++
  (match body.documents with
   | none => ["Documents field is required"]
   | some (JVal.jstr s) =>
     if isHttpUri s then [] else ["Documents must be a valid HTTP/HTTPS URL"]
   | some _ => ["Documents must be a string"]) ++
  (match coercedQuestions parseArr body.questions with
   | none => ["Questions field is required"]
   | some (JVal.jarr items) =>
     (if items.length < 1 then ["At least one question is required"] else []) ++
     (if items.length > 10 then ["Maximum 10 questions allowed per request"] else []) ++
     collectItemViolations items
   | some _ => ["Questions must be an array"])

/-- validateRequest: isValid is the absence of violations, and the
violation list is returned alongside. -/
def validateRequest (parseArr : String → Option (List JVal))
    (body : RequestBody) : Bool × List String :=
  let errors := runRequestViolations parseArr body
  (errors.isEmpty, errors)

/-- C4 claim-side predicate, written from the claim text: documents is an
absolute http/https URL string and questions is an array of 1 to 10 strings
whose TRIMMED length lies in [5, 1000]; it says nothing about unknown
keys. -/
def specRunValid (body : RequestBody) : Bool :=
  (match body.documents with
   | some (JVal.jstr s) => isHttpUri s
   | _ => false) &&
  (match body.questions with
   | some (JVal.jarr items) =>
     decide (1 ≤ items.length) && decide (items.length ≤ 10) &&
     items.all (fun v =>
       match v with
       | JVal.jstr q =>
         decide (5 ≤ (jsTrim q.toList).length) && decide ((jsTrim q.toList).length ≤ 1000)
       | _ => false)
   | _ => false)

/-- Amended C4 acceptance predicate: as the claim, but the per-question
bound is on the raw untrimmed length, a body carrying an unknown key is
rejected, and the questions rules are applied to the convert-coerced
questions value (a string that JSON-parses as an array counts as that
array). -/
def amendedRunValid (parseArr : String → Option (List JVal))
    (body : RequestBody) : Bool :=
  !body.hasUnknownKeys &&
  (match body.documents with
   | some (JVal.jstr s) => isHttpUri s
   | _ => false) &&
  (match coercedQuestions parseArr body.questions with
   | some (JVal.jarr items) =>
     decide (1 ≤ items.length) && decide (items.length ≤ 10) &&
     items.all (fun v =>
       match v with
       | JVal.jstr q => decide (5 ≤ q.length) && decide (q.length ≤ 1000)
       | _ => false)
   | _ => false)

/-- Helper: isEmpty distributes over append. -/
theorem listIsEmpty_append {α : Type} (l m : List α) :
    (l ++ m).isEmpty = (l.isEmpty && m.isEmpty) := by
  cases l <;> simp [List.isEmpty]

theorem questionItemViolations_isEmpty (v : JVal) :
    (questionItemViolations v).isEmpty
      = (match v with
         | JVal.jstr q => decide (5 ≤ q.length) && decide (q.length ≤ 1000)
         | _ => false) := by
  cases v with
  | jstr s =>
    simp only [questionItemViolations, listIsEmpty_append]
    by_cases h5 : s.length < 5
    · rw [if_pos h5, decide_eq_false (by omega : ¬ 5 ≤ s.length)]
      rfl
    · rw [if_neg h5, decide_eq_true (by omega : 5 ≤ s.length)]
      by_cases h1000 : s.length > 1000
      · rw [if_pos h1000, decide_eq_false (by omega : ¬ s.length ≤ 1000)]
        rfl
      · rw [if_neg h1000, decide_eq_true (by omega : s.length ≤ 1000)]
        rfl
  | jarr items => rfl
  | jother => rfl

theorem collectItemViolations_isEmpty (items : List JVal) :
    (collectItemViolations items).isEmpty
      = items.all (fun v =>
          match v with
          | JVal.jstr q => decide (5 ≤ q.length) && decide (q.length ≤ 1000)
          | _ => false) := by
  induction items with
  | nil => rfl
  | cons v rest ih =>
    simp only [collectItemViolations, listIsEmpty_append, ih,
      questionItemViolations_isEmpty, List.all_cons]

/-- C4 counterexample: a body whose single question is four spaces and a
question mark (raw length 5, trimmed length 1) is accepted by
validateRequest, yet the claim's trimmed-length rule calls it invalid.  The
questions field is an actual array, so the string-to-array coercion never
consults its JSON.parse oracle. -/
theorem validateRequest_trimmed_length_counterexample :
    (validateRequest (fun _ => none)
        { documents := some (JVal.jstr "http://example.com/a"),
          questions := some (JVal.jarr [JVal.jstr "    ?"]),
          hasUnknownKeys := false }).1 = true ∧
    specRunValid
        { documents := some (JVal.jstr "http://example.com/a"),
          questions := some (JVal.jarr [JVal.jstr "    ?"]),
          hasUnknownKeys := false } = false := by
  constructor
  · decide
  · decide

/-- C4 amended: for every JSON.parse oracle, validateRequest accepts
exactly the bodies with no unknown keys, an http/https URL string in
documents, and a questions field that — after the convert coercion turning
a string that JSON-parses as an array into that array — is an array of 1 to
10 strings whose RAW length lies in [5, 1000]; and isValid is the emptiness
of the reported violation list, so every rejected body carries at least one
field-level violation. -/
theorem validateRequest_characterization
    (parseArr : String → Option (List JVal)) (body : RequestBody) :
    (validateRequest parseArr body).1 = amendedRunValid parseArr body ∧
    (validateRequest parseArr body).1 = (validateRequest parseArr body).2.isEmpty := by
  refine ⟨?_, rfl⟩
  obtain ⟨docs, qs, unk⟩ := body
  simp only [validateRequest, runRequestViolations, amendedRunValid]
  cases unk with
  | true => simp [listIsEmpty_append]
  | false =>
    cases docs with
    | none => simp [listIsEmpty_append]
    | some dv =>
      cases dv with
      | jarr ditems => simp [listIsEmpty_append]
      | jother => simp [listIsEmpty_append]
      | jstr s =>
        cases hu : isHttpUri s with
        | false => simp [hu, listIsEmpty_append]
        | true =>
          cases hcq : coercedQuestions parseArr qs with
          | none => simp [hu, listIsEmpty_append]
          | some qv =>
            cases qv with
            | jstr t => simp [hu, listIsEmpty_append]
            | jother => simp [hu, listIsEmpty_append]
            | jarr items =>
              by_cases hlo : items.length < 1
              · have d1 : decide (1 ≤ items.length) = false :=
                  decide_eq_false (by omega)
                simp [hu, hlo, d1, listIsEmpty_append,
                  collectItemViolations_isEmpty]
              · have d1 : decide (1 ≤ items.length) = true :=
                  decide_eq_true (by omega)
                by_cases hhi : items.length > 10
                · have d2 : decide (items.length ≤ 10) = false :=
                    decide_eq_false (by omega)
                  simp [hu, hlo, hhi, d1, d2, listIsEmpty_append,
                    collectItemViolations_isEmpty]
                · have d2 : decide (items.length ≤ 10) = true :=
                    decide_eq_true (by omega)
                  simp [hu, hlo, hhi, d1, d2, listIsEmpty_append,
                    collectItemViolations_isEmpty]

/-! ## Upload endpoint question validation

Two pieces of the repository bear on the upload-mode questions field: the
inline check in the POST /hackrx/upload handler (src/routes/hackrx.js),
and the custom validator of uploadRequestSchema (src/utils/validator.js).
The route handler never calls the schema.  JSON.parse is modelled by its
outcome: none when parsing throws, otherwise the parsed value. -/

/-- What the upload route handler decides about the questions field. -/
inductive UploadDecision where
  | respond400 (message : String)
  | processWith (parsedQuestions : List JVal)
deriving Repr

/-- The inline questions check of the POST /hackrx/upload handler: reject
unparsable JSON, non-arrays and empty arrays; everything else proceeds to
the pipeline. -/
def uploadRouteQuestionsCheck (parsed : Option JVal) : UploadDecision :=
  match parsed with
  | none => UploadDecision.respond400 "Questions must be a valid JSON array"
  | some v =>
    match v with
    | JVal.jarr items =>
      if items.length = 0 then
        UploadDecision.respond400 "Questions must be a non-empty array"
      else UploadDecision.processWith items
    | _ => UploadDecision.respond400 "Questions must be a non-empty array"

/-- The element loop of the uploadRequestSchema custom validator: the first
offending element fails the validation (non-string, too short, too long, in
that order); otherwise the string elements are returned. -/
def uploadSchemaQuestionItems : List JVal → Except String (List String)
  | [] => Except.ok []
  | v :: rest =>
    match v with
    | JVal.jstr q =>
      if q.length < 5 then Except.error "Each question must be at least 5 characters long"
      else if q.length > 1000 then Except.error "Each question must not exceed 1000 characters"
      else
        match uploadSchemaQuestionItems rest with
        | Except.ok qs => Except.ok (q :: qs)
        | Except.error e => Except.error e
    | _ => Except.error "All questions must be strings"

/-- The uploadRequestSchema custom validator over the JSON.parse outcome:
rejects unparsable JSON, non-arrays, empty arrays, arrays of more than 10
elements, and any element that is not a string of length 5 to 1000. -/
def uploadSchemaQuestionsCheck (parsed : Option JVal) : Except String (List String) :=
  match parsed with
  | none => Except.error "Questions must be valid JSON"
  | some v =>
    match v with
    | JVal.jarr items =>
      if items.length = 0 then Except.error "At least one question is required"
      else if items.length > 10 then Except.error "Maximum 10 questions allowed"
      else uploadSchemaQuestionItems items
    | _ => Except.error "Questions must be a JSON array"

/-- C5: the upload route accepts a questions array that the repository's
own upload schema rejects — the two-character question "hi" proceeds to the
pipeline although the schema requires at least 5 characters.  The handler
enforces only the JSON/array/non-empty rules, not the per-question
constraints of the URL mode. -/
theorem uploadRoute_accepts_what_schema_rejects :
    uploadRouteQuestionsCheck (some (JVal.jarr [JVal.jstr "hi"]))
      = UploadDecision.processWith [JVal.jstr "hi"] ∧
    uploadSchemaQuestionsCheck (some (JVal.jarr [JVal.jstr "hi"]))
      = Except.error "Each question must be at least 5 characters long" :=
  ⟨rfl, rfl⟩

/-! ## sanitizeString (src/utils/validator.js)

The input may be any JavaScript value; a non-string input yields the empty
string.  The string content is modelled as a character list so the
filtering and truncation steps can be reasoned about directly. -/

/-- Sanitization options; in the repository the only caller passes
maxLength 1000 and leaves allowControlChars unset (falsy). -/
structure SanitizeOptions where
  maxLength : Option Nat := none
  allowControlChars : Bool := false

/-- The JavaScript default expression options.maxLength || 1000: the
configured value is used unless it is absent or 0 (0 is falsy). -/
def effectiveMaxLength (options : SanitizeOptions) : Nat :=
  match options.maxLength with
  | some m => if m = 0 then 1000 else m
  | none => 1000

/-- The control characters stripped by the final regex
[\x00-\x08\x0B\x0C\x0E-\x1F\x7F]. -/
def isStrippedControl (c : Char) : Bool :=
  decide (c.toNat ≤ 0x08) || decide (c.toNat = 0x0B) || decide (c.toNat = 0x0C) ||
  (decide (0x0E ≤ c.toNat) && decide (c.toNat ≤ 0x1F)) || decide (c.toNat = 0x7F)

/-- sanitizeString: empty for non-strings, else trim, remove null bytes,
truncate to the effective maximum length, and (unless allowed) strip
control characters. -/
def sanitizeString (input : JVal) (options : SanitizeOptions) : List Char :=
  match input with
  | JVal.jstr s =>
    let trimmed := jsTrim s.toList
    let noNull := trimmed.filter (fun c => !(c == Char.ofNat 0))
    let maxLength := effectiveMaxLength options
    let limited := if maxLength < noNull.length then noNull.take maxLength else noNull
    if options.allowControlChars then limited
    else limited.filter (fun c => !(isStrippedControl c))
  | _ => []

/-- C9 counterexample: with a configured maxLength of 0 the JavaScript ||
operator silently restores the default 1000, so the result is not bounded
by the configured value: sanitizing "hello" yields five characters, more
than 0. -/
theorem sanitizeString_maxLength_zero_counterexample :
    sanitizeString (JVal.jstr "hello")
        { maxLength := some 0, allowControlChars := false }
      = ['h', 'e', 'l', 'l', 'o'] ∧
    0 < (sanitizeString (JVal.jstr "hello")
        { maxLength := some 0, allowControlChars := false }).length := by
  constructor
  · decide
  · decide

/-- C9 amended: sanitizeString always returns a string — empty when the
input is not a string — that contains no null byte and is no longer than
the effective maximum length, where a configured maxLength of 0 falls back
to the default 1000 exactly as the JavaScript || operator does. -/
theorem sanitizeString_no_null_and_bounded (input : JVal) (options : SanitizeOptions) :
    (sanitizeString input options).contains (Char.ofNat 0) = false ∧
    (sanitizeString input options).length ≤ effectiveMaxLength options ∧
    (∀ items, sanitizeString (JVal.jarr items) options = []) ∧
    sanitizeString JVal.jother options = [] := by
  refine ⟨?_, ?_, fun items => rfl, rfl⟩
  · cases input with
    | jarr items => rfl
    | jother => rfl
    | jstr s =>
      have hnotmem : Char.ofNat 0 ∉ sanitizeString (JVal.jstr s) options := by
        intro hmem
        simp only [sanitizeString] at hmem
        have h3 : Char.ofNat 0 ∈ (jsTrim s.toList).filter
            (fun c => !(c == Char.ofNat 0)) := by
          split at hmem
          · split at hmem
            · exact List.take_subset _ _ hmem
            · exact hmem
          · have h4 := (List.mem_filter.mp hmem).1
            split at h4
            · exact List.take_subset _ _ h4
            · exact h4
        have h5 := (List.mem_filter.mp h3).2
        simp at h5
      cases hc : (sanitizeString (JVal.jstr s) options).contains (Char.ofNat 0)
      · rfl
      · exact absurd (List.mem_of_elem_eq_true hc) hnotmem
  · cases input with
    | jarr items => simp [sanitizeString]
    | jother => simp [sanitizeString]
    | jstr s =>
      simp only [sanitizeString]
      have hlim : (if effectiveMaxLength options
            < ((jsTrim s.toList).filter (fun c => !(c == Char.ofNat 0))).length
          then ((jsTrim s.toList).filter (fun c => !(c == Char.ofNat 0))).take
                 (effectiveMaxLength options)
          else (jsTrim s.toList).filter (fun c => !(c == Char.ofNat 0))).length
          ≤ effectiveMaxLength options := by
        split
        · rw [List.length_take]
          omega
        · rename_i h
          omega
      split
      · exact hlim
      · exact le_trans (List.length_filter_le _ _) hlim
